import Mathlib

/-!
Verification of the CLS news fetch/dedup/analyze pipeline.

The Python sources are shallowly embedded: strings become `List Char`
(`PyStr`), Python integers become `Int`/`Nat`, fallible operations return
`Option`/`Except`.  The regular-expression based extraction functions of
`src/analyzer.py` are embedded as hand-written scanners that implement the
exact backtracking semantics of the concrete patterns used by the code
(each such function documents the pattern it implements and why the
scanner is equivalent to the backtracking engine on that pattern).
-/

namespace CLSVerif

abbrev PyStr := List Char

/-- Python regex `\s` (ASCII part: space, tab, newline, carriage return,
vertical tab, form feed).  The keywords and markers used by the analyzer
are all CJK, so restricting to the ASCII whitespace set does not change
any of the extraction results modelled here. -/
def isPySpace (c : Char) : Bool :=
  c.toNat = 32 || c.toNat = 9 || c.toNat = 10 || c.toNat = 13 || c.toNat = 11 || c.toNat = 12

/-- Python regex `\d` (ASCII decimal digits). -/
def isPyDigit (c : Char) : Bool :=
  48 ≤ c.toNat && c.toNat ≤ 57

/-- Python `str.strip()`: remove whitespace from both ends. -/
def pyStrip (s : PyStr) : PyStr :=
  (((s.dropWhile isPySpace).reverse).dropWhile isPySpace).reverse

/-- Python `str.lower()`, modelled per character (the analyzer only ever
looks for CJK keywords, which are fixed points of case mapping). -/
def pyLower (s : PyStr) : PyStr := s.map Char.toLower

/-- Python `needle in hay` substring test. -/
def strContains : PyStr → PyStr → Bool
  | [], needle => needle.isEmpty
  | c :: t, needle => needle.isPrefixOf (c :: t) || strContains t needle

/-- Python `hay.find(needle)`: index of the first occurrence, `none` for -1. -/
def findSub : PyStr → PyStr → Option Nat
  | [], needle => if needle.isEmpty then some 0 else none
  | c :: t, needle =>
    if needle.isPrefixOf (c :: t) then some 0 else (findSub t needle).map (· + 1)

/-- Python `hay[hay.find(needle):]` (a failed find yields -1, and `[-1:]`
keeps only the last character). -/
def dropFromFind (hay needle : PyStr) : PyStr :=
  match findSub hay needle with
  | some i => hay.drop i
  | none => hay.drop (hay.length - 1)

/-- Python `int` on a non-empty ASCII digit string. -/
def digitsToNat (ds : PyStr) : Nat :=
  ds.foldl (fun n c => 10 * n + (c.toNat - 48)) 0

/-- The `max(1, min(10, x))` clamp applied to every score of the analyzer. -/
def pyClamp (n : Int) : Int := max 1 (min 10 n)

/-! ### Data model (`src/models.py`) -/

/-- `NewsItem` of `src/models.py`. -/
structure NewsItem where
  id : PyStr
  title : PyStr
  content : PyStr
  ctime : Int
  subjects : List PyStr
  stocks : List PyStr
  deriving DecidableEq, Repr

/-- `NewsItem.has_specific_stocks`: `bool(self.stocks)`. -/
def NewsItem.has_specific_stocks (n : NewsItem) : Bool := !n.stocks.isEmpty

/-- `NewsItem.is_industry_event`: `not self.stocks or bool(self.subjects)`. -/
def NewsItem.is_industry_event (n : NewsItem) : Bool :=
  n.stocks.isEmpty || !n.subjects.isEmpty

/-- `StockRating` of `src/models.py`. -/
structure StockRating where
  stock_name : PyStr
  is_positive : Bool
  score : Int
  reason : PyStr
  deriving DecidableEq, Repr

/-- `IndustryRating` of `src/models.py`. -/
structure IndustryRating where
  industry_name : PyStr
  is_positive : Bool
  score : Int
  leader_stocks : List PyStr
  reason : PyStr
  deriving DecidableEq, Repr

/-- `AnalysisResult` of `src/models.py`.  `analyzed_at` defaults to
`datetime.now()` in Python; the clock reading is threaded in explicitly as
an `Int` parameter of the constructing functions. -/
structure AnalysisResult where
  news_id : PyStr
  score : Int
  analysis : PyStr
  is_positive : Bool
  market_impact : PyStr
  stock_ratings : List StockRating
  industry_ratings : List IndustryRating
  analyzed_at : Int
  deriving DecidableEq, Repr

/-! ### Fallback scorer (`EnhancedAnalyzer._analyze_fallback`) -/

/-- The marker token "利好" (positive). -/
def haoKw : PyStr := ("利好").toList

/-- The marker token "利空" (negative). -/
def kongKw : PyStr := ("利空").toList

/-- The token "中性" (neutral). -/
def neutralKw : PyStr := ("中性").toList

/-- `positive_keywords` of `_analyze_fallback`. -/
def positive_keywords : List PyStr :=
  [("增长").toList, ("上涨").toList, ("突破").toList, ("利好").toList,
   ("支持").toList, ("加速").toList, ("扩大").toList, ("创新").toList,
   ("盈利").toList, ("超预期").toList, ("回升").toList, ("反弹").toList,
   ("新高").toList]

/-- `negative_keywords` of `_analyze_fallback`. -/
def negative_keywords : List PyStr :=
  [("下跌").toList, ("下降").toList, ("亏损").toList, ("利空").toList,
   ("风险").toList, ("警告").toList, ("暴跌").toList, ("收缩").toList,
   ("萎缩").toList, ("不及预期").toList, ("暂停").toList, ("终止").toList,
   ("处罚").toList]

/-- `high_impact_keywords` of `_analyze_fallback`. -/
def high_impact_keywords : List PyStr :=
  [("央行").toList, ("政策").toList, ("降息").toList, ("加息").toList,
   ("财政").toList, ("重大").toList, ("突发").toList, ("并购").toList,
   ("重组").toList, ("退市").toList, ("上市").toList, ("国务院").toList,
   ("发改委").toList]

/-- `industry_keywords` of `_analyze_fallback` (insertion order of the
Python dict is preserved). -/
def industry_keywords : List (PyStr × List PyStr) :=
  [(("新能源").toList, [("宁德时代").toList, ("比亚迪").toList, ("隆基绿能").toList]),
   (("半导体").toList, [("中芯国际").toList, ("韦尔股份").toList, ("北方华创").toList]),
   (("人工智能").toList, [("科大讯飞").toList, ("商汤科技").toList, ("寒武纪").toList]),
   (("银行").toList, [("工商银行").toList, ("建设银行").toList, ("招商银行").toList]),
   (("白酒").toList, [("贵州茅台").toList, ("五粮液").toList, ("泸州老窖").toList]),
   (("医药").toList, [("恒瑞医药").toList, ("药明康德").toList, ("迈瑞医疗").toList]),
   (("地产").toList, [("万科A").toList, ("保利发展").toList, ("招商蛇口").toList])]

/-- Reason string "基于关键词分析". -/
def kwReasonText : PyStr := ("基于关键词分析").toList

/-- Reason string "影响中性". -/
def neutralReasonText : PyStr := ("影响中性").toList

/-- Head of the templated first-principles reason. -/
def fpReasonHead : PyStr := ("基于第一性原理，").toList

/-- Tail of the templated first-principles reason. -/
def fpReasonTail : PyStr := ("行业的核心价值在于技术壁垒和市场份额").toList

/-- Market impact text for a positive item. -/
def posImpactText : PyStr := ("可能对相关板块形成正面刺激").toList

/-- Market impact text for a negative item. -/
def negImpactText : PyStr := ("可能对相关板块形成负面影响").toList

/-- Market impact text when no negative keyword was found. -/
def limitedImpactText : PyStr := ("影响有限").toList

/-- Head of the keyword-based analysis text. -/
def analysisHead : PyStr := ("基于关键词分析，该新闻").toList

/-- Tail of the keyword-based analysis text. -/
def analysisTail : PyStr := ("信号明显").toList

/-- Analysis text when no keyword was found. -/
def neutralAnalysisText : PyStr := ("该新闻影响较为中性").toList

/-- Count of the keywords of `kws` occurring in `content`
(`sum(1 for kw in kws if kw in content)`). -/
def keywordHits (content : PyStr) (kws : List PyStr) : Nat :=
  kws.countP (fun kw => strContains content kw)

/-- `EnhancedAnalyzer._analyze_fallback` of `src/analyzer.py`.  `now` is the
clock value stored into `analyzed_at` (default `datetime.now()`). -/
def analyzeFallback (news : NewsItem) (now : Int) : AnalysisResult :=
  let content := pyLower news.content
  let positive_score := keywordHits content positive_keywords
  let negative_score := keywordHits content negative_keywords
  let impact_score := 2 * keywordHits content high_impact_keywords
  let is_positive := decide (negative_score < positive_score)
  let score := pyClamp (5 + ((positive_score : Int) - (negative_score : Int)) + (impact_score : Int))
  let stock_ratings := news.stocks.map (fun s =>
    { stock_name := s, is_positive := is_positive, score := score,
      reason := if 0 < positive_score + negative_score then kwReasonText else neutralReasonText })
  let industry_ratings := (industry_keywords.filter (fun p =>
      strContains content p.1 || [p.1].any (fun kw => strContains content kw))).map (fun p =>
    { industry_name := p.1, is_positive := is_positive, score := score,
      leader_stocks := p.2, reason := fpReasonHead ++ p.1 ++ fpReasonTail })
  let sentiment := if is_positive then haoKw else (if 0 < negative_score then kongKw else neutralKw)
  let market_impact :=
    if is_positive then posImpactText
    else (if 0 < negative_score then negImpactText else limitedImpactText)
  let analysis :=
    if 0 < positive_score + negative_score then analysisHead ++ sentiment ++ analysisTail
    else neutralAnalysisText
  { news_id := news.id, score := score, analysis := analysis,
    is_positive := is_positive, market_impact := market_impact,
    stock_ratings := stock_ratings, industry_ratings := industry_ratings,
    analyzed_at := now }

/-! ### Regex scanners (`EnhancedAnalyzer._parse_*` of `src/analyzer.py`)

The concrete patterns are implemented as deterministic scanners.  Each
doc comment states the pattern and, where the backtracking engine could
in principle try several splits, why the scanner's choice is the one the
engine makes. -/

/-- Matches the literal `lit` at the head of the input, returning the rest. -/
def dropLit (lit cs : PyStr) : Option PyStr :=
  if lit.isPrefixOf cs then some (cs.drop lit.length) else none

/-- Matches the character class `[：:]` (one full- or half-width colon). -/
def colonStep : PyStr → Option PyStr
  | c :: t => if c == '：' || c == ':' then some t else none
  | [] => none

/-- Characters of the class `[^:：]` (any character but a colon,
including newlines). -/
def notColon (c : Char) : Bool := !(c == ':' || c == '：')

/-- Matches `\s*(lit)` where the literal starts with a non-whitespace
character: `\s*` greedily eats all whitespace, and backtracking cannot
help because a shorter whitespace run leaves a whitespace character
where the literal's non-whitespace head would have to match. -/
def wsLit (lit cs : PyStr) : Option PyStr :=
  dropLit lit (cs.dropWhile isPySpace)

/-- Matches `\s*([^:：]+)[：:]`.  The greedy group runs to the first colon
(its class excludes colons, so no longer run exists and every shorter run
is followed by a non-colon).  If the first non-whitespace character is
itself a colon the engine backtracks `\s*` by one character, so the group
captures the last whitespace character. -/
def nameColon (cs : PyStr) : Option (PyStr × PyStr) :=
  let w := cs.takeWhile isPySpace
  let a := cs.dropWhile isPySpace
  let nm := a.takeWhile notColon
  match a.dropWhile notColon with
  | [] => none
  | _ :: r =>
    if nm.isEmpty then
      match w.reverse with
      | [] => none
      | wc :: _ => some ([wc], r)
    else some (nm, r)

/-- Matches `(利好|利空)` preceded by `\s*`. -/
def sentimentTok (cs : PyStr) : Option (Bool × PyStr) :=
  match wsLit haoKw cs with
  | some r => some (true, r)
  | none =>
    match wsLit kongKw cs with
    | some r => some (false, r)
    | none => none

/-- The literal `/10`. -/
def slash10Tok : PyStr := ("/10").toList

/-- Matches `\s*(\d+)/10`: after the maximal whitespace run the digit run
is maximal (a shorter run is followed by a digit, not `/`), and then the
literal `/10` must follow; backtracking into `\s*` puts a whitespace
character where a digit must stand, so it never helps. -/
def wsDigitsTail (cs : PyStr) : Option (PyStr × PyStr) :=
  let a := cs.dropWhile isPySpace
  let ds := a.takeWhile isPyDigit
  if ds.isEmpty then none
  else (dropLit slash10Tok (a.dropWhile isPyDigit)).map (fun r => (ds, r))

/-- Drops one leading newline (the consumed `\n` terminator of
`(?:\n|$)`; at the end of input `$` consumes nothing). -/
def chopNl : PyStr → PyStr
  | [] => []
  | c :: r => if c == '\n' then r else c :: r

/-- Matches `\s*(.+?)(?:\n|$)` (no DOTALL: `.` excludes `\n`).  After the
maximal whitespace run a non-whitespace character follows and the lazy
group runs to the first newline (or the end).  If the whole input is
whitespace the engine backtracks `\s*` to just before its last
non-newline character, which becomes the single-character group. -/
def wsLazyLine (cs : PyStr) : Option (PyStr × PyStr) :=
  match cs.dropWhile isPySpace with
  | c :: t =>
    some ((c :: t).takeWhile (fun x => x != '\n'),
          chopNl ((c :: t).dropWhile (fun x => x != '\n')))
  | [] =>
    match cs.reverse.dropWhile (fun x => x == '\n') with
    | w :: _ => some ([w], (cs.reverse.takeWhile (fun x => x == '\n')).drop 1)
    | [] => none

/-- The literal `-`. -/
def dashTok : PyStr := ("-").toList

/-- The literal `|`. -/
def pipeTok : PyStr := ("|").toList

/-- One attempted match of the stock-rating pattern
`-\s*([^:：]+)[：:]\s*(利好|利空)\s*(\d+)/10\s*\|\s*(.+?)(?:\n|$)` at the
head of the input, building the `StockRating` exactly as the loop body of
`_parse_stock_ratings` does (`int` of a digit run never raises, so the
`except ValueError` branch is unreachable). -/
def matchStockAt (cs : PyStr) : Option (StockRating × PyStr) := do
  let r1 ← dropLit dashTok cs
  let (nm, r2) ← nameColon r1
  let (pos, r3) ← sentimentTok r2
  let (ds, r4) ← wsDigitsTail r3
  let r5 ← wsLit pipeTok r4
  let (rsn, rest) ← wsLazyLine r5
  some ({ stock_name := pyStrip nm, is_positive := pos,
          score := pyClamp ((digitsToNat ds : Int)),
          reason := (pyStrip rsn).take 100 }, rest)

/-- `re.findall` scanning for `matchStockAt`: try each position from left
to right, continuing after the end of every successful (always
non-empty) match.  The fuel starts above the input length and every step
consumes one unit while the input shrinks by at least one character, so
the fuel never runs out. -/
def findStockAux : Nat → PyStr → List StockRating
  | 0, _ => []
  | f + 1, cs =>
    match matchStockAt cs with
    | some (r, rest) => r :: findStockAux f rest
    | none =>
      match cs with
      | [] => []
      | _ :: t => findStockAux f t

/-- `EnhancedAnalyzer._parse_stock_ratings`. -/
def parseStockRatings (response_text : PyStr) : List StockRating :=
  findStockAux (response_text.length + 1) response_text

/-- `re.search`: try the single-position matcher at every position from
left to right, returning the first success. -/
def searchMap {α : Type} (m : PyStr → Option α) : PyStr → Option α
  | [] => m []
  | c :: t =>
    match m (c :: t) with
    | some x => some x
    | none => searchMap m t

/-- The label `评分`. -/
def scoreLabel : PyStr := ("评分").toList

/-- One attempted match of `评分[：:]\s*(\d+)` at the head of the input:
after the label, a colon, maximal whitespace, then a maximal non-empty
digit run (nothing follows the group, so backtracking never applies). -/
def scoreLabelAt (cs : PyStr) : Option Nat := do
  let r1 ← dropLit scoreLabel cs
  let r2 ← colonStep r1
  let ds := (r2.dropWhile isPySpace).takeWhile isPyDigit
  if ds.isEmpty then none else some (digitsToNat ds)

/-- Stop condition of the lazy group of `(.+?)(?:\n|$|##)` under DOTALL:
the first position (after at least one captured character) holding a
newline or `##`; `$` additionally matches at the end (the recursion
ending at `[]`) and before a final newline (covered by the newline
alternative at the same position). -/
def stopNlHashes : PyStr → Bool
  | '\n' :: _ => true
  | '#' :: '#' :: _ => true
  | _ => false

/-- Stop condition of the lazy group of `(.+?)(?:\n\n|$)` under DOTALL:
the first position holding `\n\n`, or a final single newline (`$`
matches just before it). -/
def stopDoubleNl : PyStr → Bool
  | '\n' :: '\n' :: _ => true
  | ['\n'] => true
  | _ => false

/-- The prefix of the input up to (excluding) the first position at which
`stop` holds, or the whole input. -/
def takeUntilStop (stop : PyStr → Bool) : PyStr → PyStr
  | [] => []
  | c :: t => if stop (c :: t) then [] else c :: takeUntilStop stop t

/-- Matches `\s*(.+?)(?:STOP)` under DOTALL at the head of the input,
where the stop condition is one of the two above.  After the maximal
whitespace run the lazy group (which may cross newlines under DOTALL)
runs to the first stop position at or after index 1.  If the whole input
is whitespace, the engine backtracks `\s*` by one character and the last
character alone is the group (`$` matches at the end). -/
def wsLazyDotall (stop : PyStr → Bool) (cs : PyStr) : Option PyStr :=
  match cs.dropWhile isPySpace with
  | c :: t => some (c :: takeUntilStop stop t)
  | [] =>
    match cs.reverse with
    | w :: _ => some ([w])
    | [] => none

/-- The label `市场影响`. -/
def impactLabel : PyStr := ("市场影响").toList

/-- One attempted match of `市场影响[：:]\s*(.+?)(?:\n|$|##)` (DOTALL). -/
def impactAt (cs : PyStr) : Option PyStr := do
  let r1 ← dropLit impactLabel cs
  let r2 ← colonStep r1
  wsLazyDotall stopNlHashes r2

/-- The label `分析`. -/
def analysisLabel : PyStr := ("分析").toList

/-- One attempted match of `分析[：:]\s*(.+?)(?:\n|$|##)` (DOTALL). -/
def analysisAt (cs : PyStr) : Option PyStr := do
  let r1 ← dropLit analysisLabel cs
  let r2 ← colonStep r1
  wsLazyDotall stopNlHashes r2

/-! ### Industry-rating extraction (`_parse_industry_ratings`) -/

/-- The marker `行业评级`. -/
def industryRatingLabel : PyStr := ("行业评级").toList

/-- The marker and label `行业名称`. -/
def industryNameLabel : PyStr := ("行业名称").toList

/-- The label `影响方向`. -/
def directionLabel : PyStr := ("影响方向").toList

/-- The label `龙头股票`. -/
def leadersLabel : PyStr := ("龙头股票").toList

/-- The label `第一性原理分析`. -/
def fpLabel : PyStr := ("第一性原理分析").toList

/-- The substring `行业` (slice start for the industry score search). -/
def industryKw : PyStr := ("行业").toList

/-- The default industry name `未知行业`. -/
def unknownIndustryText : PyStr := ("未知行业").toList

/-- The default market-impact text `暂无详细分析`. -/
def noImpactText : PyStr := ("暂无详细分析").toList

/-- The default first-principles reason `基于行业基本面分析`. -/
def fpDefaultText : PyStr := ("基于行业基本面分析").toList

/-- One attempted match of `行业名称[：:]\s*(.+?)(?:\n|$)`. -/
def industryNameAt (cs : PyStr) : Option PyStr := do
  let r1 ← dropLit industryNameLabel cs
  let r2 ← colonStep r1
  let (g, _) ← wsLazyLine r2
  some g

/-- One attempted match of `影响方向[：:]\s*(利好|利空)`. -/
def directionAt (cs : PyStr) : Option Bool := do
  let r1 ← dropLit directionLabel cs
  let r2 ← colonStep r1
  let (b, _) ← sentimentTok r2
  some b

/-- One attempted match of `评分[：:]\s*(\d+)/10`. -/
def industryScoreAt (cs : PyStr) : Option Nat := do
  let r1 ← dropLit scoreLabel cs
  let r2 ← colonStep r1
  let (ds, _) ← wsDigitsTail r2
  some (digitsToNat ds)

/-- One attempted match of `龙头股票[：:]\s*(.+?)(?:\n|$)`. -/
def leadersAt (cs : PyStr) : Option PyStr := do
  let r1 ← dropLit leadersLabel cs
  let r2 ← colonStep r1
  let (g, _) ← wsLazyLine r2
  some g

/-- One attempted match of `第一性原理分析[：:]\s*(.+?)(?:\n\n|$)` (DOTALL). -/
def fpAt (cs : PyStr) : Option PyStr := do
  let r1 ← dropLit fpLabel cs
  let r2 ← colonStep r1
  wsLazyDotall stopDoubleNl r2

/-- A separator of `re.split(r"[,，、]", ...)`. -/
def isSepChar (c : Char) : Bool := c == ',' || c == '，' || c == '、'

/-- `re.split` on the separator class (helper carrying the reversed
current chunk). -/
def splitSepsAux (acc : PyStr) : PyStr → List PyStr
  | [] => [acc.reverse]
  | c :: t =>
    if isSepChar c then acc.reverse :: splitSepsAux [] t
    else splitSepsAux (c :: acc) t

/-- `re.split(r"[,，、]", cs)`. -/
def splitSeps (cs : PyStr) : List PyStr := splitSepsAux [] cs

/-- `EnhancedAnalyzer._parse_industry_ratings`.  Nothing in the body can
raise on text input, so the `except` branch is unreachable. -/
def parseIndustryRatings (response_text : PyStr) : List IndustryRating :=
  if !(strContains response_text industryRatingLabel)
      && !(strContains response_text industryNameLabel) then []
  else
    let industry_name :=
      match searchMap industryNameAt response_text with
      | some g => pyStrip g
      | none => unknownIndustryText
    let is_positive := (searchMap directionAt response_text).getD true
    let score :=
      pyClamp (((searchMap industryScoreAt (dropFromFind response_text industryKw)).getD 5 : Int))
    let leader_stocks :=
      match searchMap leadersAt response_text with
      | some g => ((splitSeps (pyStrip g)).map pyStrip).filter (fun (s : PyStr) => !s.isEmpty)
      | none => []
    let reason :=
      match searchMap fpAt response_text with
      | some g => (pyStrip g).take 200
      | none => fpDefaultText
    if industry_name ≠ unknownIndustryText then
      [{ industry_name := industry_name, is_positive := is_positive, score := score,
         leader_stocks := leader_stocks.take 5, reason := reason }]
    else []

/-! ### Response parsing and the analyze entry points -/

/-- `EnhancedAnalyzer._parse_analysis_response` on a text response (on
text input no statement of the body can raise, so the parse always
succeeds). -/
def parseAnalysisResponseStr (news : NewsItem) (now : Int) (response_text : PyStr) :
    AnalysisResult :=
  let score := pyClamp (((searchMap scoreLabelAt response_text).getD 5 : Int))
  let is_positive :=
    strContains response_text haoKw && !(strContains (response_text.take 100) kongKw)
  let market_impact :=
    match searchMap impactAt response_text with
    | some g => (pyStrip g).take 200
    | none => noImpactText
  let analysis :=
    match searchMap analysisAt response_text with
    | some g => (pyStrip g).take 200
    | none => response_text.take 200
  { news_id := news.id, score := score, analysis := analysis,
    is_positive := is_positive, market_impact := market_impact,
    stock_ratings := parseStockRatings response_text,
    industry_ratings := parseIndustryRatings response_text,
    analyzed_at := now }

/-- A value handed back by a provider: a text string or — dynamically
possible, since the providers are not statically typed and simply relay
what the SDK returns — a truthy non-string value such as `bytes`, on
which the first `re.search` of the parser raises `TypeError`. -/
inductive PyText where
  | str (s : PyStr)
  | nonText
  deriving DecidableEq, Repr

/-- `EnhancedAnalyzer._parse_analysis_response`: total on text; the
`except Exception` branch returns `None` when the regex engine raises on
a non-text response value. -/
def parseAnalysisResponse (news : NewsItem) (now : Int) : PyText → Option AnalysisResult
  | .str s => some (parseAnalysisResponseStr news now s)
  | .nonText => none

/-- Outcome of `self._provider.analyze(prompt)`: either the call raised,
or it returned `None` or a value. -/
inductive ProviderOutcome where
  | raised
  | returned (v : Option PyText)
  deriving DecidableEq, Repr

/-- Python truthiness of the provider's return value (`if response:`). -/
def responseTruthy : Option PyText → Bool
  | none => false
  | some (.str s) => !s.isEmpty
  | some .nonText => true

/-- `EnhancedAnalyzer._analyze_with_ai`: a raising provider call is
caught and degrades to the fallback; a falsy response degrades to the
fallback; a truthy response is handed to the parser and the parser's
outcome — including `None` — is returned as is. -/
def analyzeWithAI (news : NewsItem) (now : Int) : ProviderOutcome → Option AnalysisResult
  | .raised => some (analyzeFallback news now)
  | .returned none => some (analyzeFallback news now)
  | .returned (some t) =>
    if responseTruthy (some t) then parseAnalysisResponse news now t
    else some (analyzeFallback news now)

/-- `EnhancedAnalyzer.analyze`: dispatch on `provider.is_available()`. -/
def analyze (news : NewsItem) (now : Int) (available : Bool) (out : ProviderOutcome) :
    Option AnalysisResult :=
  if available then analyzeWithAI news now out
  else some (analyzeFallback news now)

/-! ### Prompt builder (`EnhancedAnalyzer._build_analysis_prompt`) -/

/-- Left-pad a decimal rendering to two digits. -/
def pad2 (n : Nat) : PyStr :=
  if n < 10 then '0' :: Nat.toDigits 10 n else Nat.toDigits 10 n

/-- Left-pad a decimal rendering to four digits. -/
def pad4 (n : Nat) : PyStr :=
  List.replicate (4 - (Nat.toDigits 10 n).length) '0' ++ Nat.toDigits 10 n

/-- Civil date from a day count relative to 1970-01-01 (standard
`civil_from_days` algorithm). -/
def civilFromDays (z0 : Int) : Int × Nat × Nat :=
  let z := z0 + 719468
  let era := z.fdiv 146097
  let doe := (z - era * 146097).toNat
  let yoe := (doe - doe / 1460 + doe / 36524 - doe / 146096) / 365
  let y := (yoe : Int) + era * 400
  let doy := doe - (365 * yoe + yoe / 4 - yoe / 100)
  let mp := (5 * doy + 2) / 153
  let d := doy - (153 * mp + 2) / 5 + 1
  let m := if mp < 10 then mp + 3 else mp - 9
  (if m ≤ 2 then y + 1 else y, m, d)

/-- `NewsItem.display_time`:
`datetime.fromtimestamp(ctime).strftime of %Y-%m-%d %H:%M:%S`.  The host
timezone is modelled as UTC (no claim depends on the rendered value). -/
def NewsItem.display_time (n : NewsItem) : PyStr :=
  let days := n.ctime.fdiv 86400
  let secs := (n.ctime - days * 86400).toNat
  let ymd := civilFromDays days
  pad4 ymd.1.toNat ++ ('-' :: pad2 ymd.2.1) ++ ('-' :: pad2 ymd.2.2)
    ++ (' ' :: pad2 (secs / 3600)) ++ (':' :: pad2 (secs % 3600 / 60))
    ++ (':' :: pad2 (secs % 60))

/-- The placeholder `无` used for an empty stock/subject list. -/
def wuText : PyStr := ("无").toList

/-- The `", "` separator of `", ".join(...)`. -/
def commaSep : PyStr := (", ").toList

/-- `stocks_str`: `", ".join(news.stocks) if news.stocks else "无"`. -/
def stocksStrOf (n : NewsItem) : PyStr :=
  if n.stocks.isEmpty then wuText else List.intercalate commaSep n.stocks

/-- `subjects_str`: `", ".join(news.subjects) if news.subjects else "无"`. -/
def subjectsStrOf (n : NewsItem) : PyStr :=
  if n.subjects.isEmpty then wuText else List.intercalate commaSep n.subjects

/-- Fixed text of the stock section before the interpolated stock list. -/
def stockSectionHead : PyStr :=
  ("\n## 个股影响分析\n由于新闻涉及具体个股 (").toList

/-- Fixed text of the stock section after the interpolated stock list. -/
def stockSectionTail : PyStr :=
  (")，请针对每只股票分析：\n- 股票名称\n- 影响方向：利好 或 利空\n- 评分：1-10分（10分为极大影响）\n- 原因：简短说明（不超过50字）\n\n格式：\n个股评级：\n- [股票名称]: [利好/利空] [分数]/10 | [原因]\n").toList

/-- `stock_analysis_section`: present iff the item names specific stocks. -/
def stockSection (n : NewsItem) : PyStr :=
  if n.has_specific_stocks then stockSectionHead ++ stocksStrOf n ++ stockSectionTail
  else []

/-- Fixed text of the industry section. -/
def industrySectionText : PyStr :=
  ("\n## 行业影响分析（第一性原理）\n请运用马斯克的\"第一性原理\"思维，分析该事件对相关行业的本质影响：\n1. 识别该事件涉及的核心行业\n2. 从行业基本面出发，分析事件的本质影响\n3. 找出该行业的龙头企业（最受益或最受影响的领头羊）\n4. 给出行业评级\n\n格式：\n行业评级：\n- 行业名称: [行业名]\n- 影响方向: [利好/利空]\n- 评分: [分数]/10\n- 龙头股票: [股票1, 股票2, ...]\n- 第一性原理分析: [从本质出发的分析，不超过100字]\n").toList

/-- `industry_analysis_section`: present iff
`news.is_industry_event or subjects_str != "无"`. -/
def industrySection (n : NewsItem) : PyStr :=
  if n.is_industry_event || subjectsStrOf n ≠ wuText then industrySectionText
  else []

/-- Fixed prompt text up to the news content. -/
def promptText1 : PyStr :=
  ("请分析以下财经新闻的市场影响，并给出详细评估。\n\n## 新闻内容\n").toList

/-- Fixed prompt text between the content and the stock list. -/
def promptText2 : PyStr := ("\n\n## 相关信息\n- 相关股票：").toList

/-- Fixed prompt text between the stock list and the subject list. -/
def promptText3 : PyStr := ("\n- 相关主题：").toList

/-- Fixed prompt text between the subject list and the publish time. -/
def promptText4 : PyStr := ("\n- 发布时间：").toList

/-- Fixed prompt text between the publish time and the optional sections. -/
def promptText5 : PyStr :=
  ("\n\n## 整体评估\n请给出：\n- 评分：1-10分的市场热度评分（10分为最高）\n- 影响：利好/利空/中性\n- 分析：简短分析（不超过100字）\n- 市场影响：对市场的具体影响描述\n").toList

/-- Fixed prompt text after the optional sections (the scoring rubric). -/
def promptPost : PyStr :=
  ("\n## 评分标准\n- 9-10分：重大政策变化、行业突破性进展、重要经济数据\n- 7-8分：较大影响的行业新闻、重要企业事件\n- 5-6分：普通行业新闻、一般公司公告\n- 3-4分：较小影响的新闻\n- 1-2分：无实质性市场影响\n\n请严格按照上述格式回复。\n").toList

/-- The prompt text before the two optional sections. -/
def promptPre (n : NewsItem) : PyStr :=
  promptText1 ++ n.content ++ promptText2 ++ stocksStrOf n ++ promptText3
    ++ subjectsStrOf n ++ promptText4 ++ n.display_time ++ promptText5

/-- `EnhancedAnalyzer._build_analysis_prompt`. -/
def buildAnalysisPrompt (n : NewsItem) : PyStr :=
  promptPre n ++ stockSection n ++ industrySection n ++ promptPost

/-! ### Configuration and analyzer construction (`src/config.py`,
`EnhancedAnalyzer.__init__`, `NewsAnalyzer.__init__`) -/

/-- A Python attribute value of the configuration object. -/
inductive PyVal where
  | vStr (s : PyStr)
  | vInt (n : Int)
  | vNone
  deriving DecidableEq, Repr

/-- The Python exceptions relevant to analyzer construction. -/
inductive PyError where
  | attributeError
  | valueError
  deriving DecidableEq, Repr

/-- `Config` of `src/config.py` — exactly the fields the dataclass
declares (`from_env` sets no others). -/
structure Config where
  github_token : Option PyStr
  scrape_interval : Int
  fetch_count : Int
  request_timeout : Int
  max_retries : Int
  log_level : PyStr
  cls_api_url : PyStr
  cls_app : PyStr
  cls_os : PyStr
  cls_sv : PyStr
  deriving DecidableEq, Repr

/-- Python attribute access on a `Config` instance: each declared field
yields its value, any other name raises `AttributeError` (`none`). -/
def Config.getattr (c : Config) (name : PyStr) : Option PyVal :=
  if name = ("github_token").toList then
    some (match c.github_token with | some s => .vStr s | none => .vNone)
  else if name = ("scrape_interval").toList then some (.vInt c.scrape_interval)
  else if name = ("fetch_count").toList then some (.vInt c.fetch_count)
  else if name = ("request_timeout").toList then some (.vInt c.request_timeout)
  else if name = ("max_retries").toList then some (.vInt c.max_retries)
  else if name = ("log_level").toList then some (.vStr c.log_level)
  else if name = ("cls_api_url").toList then some (.vStr c.cls_api_url)
  else if name = ("cls_app").toList then some (.vStr c.cls_app)
  else if name = ("cls_os").toList then some (.vStr c.cls_os)
  else if name = ("cls_sv").toList then some (.vStr c.cls_sv)
  else none

/-- Attribute access as a fallible computation. -/
def getattrExc (c : Config) (name : PyStr) : Except PyError PyVal :=
  match c.getattr name with
  | some v => .ok v
  | none => .error .attributeError

/-- The provider variants of `src/ai_providers`. -/
inductive AIProvider where
  | copilot (github_token : Option PyStr)
  | qiniu (access_key secret_key api_endpoint : Option PyStr)
  deriving DecidableEq, Repr

/-- Coerce an attribute value to the `Optional[str]` the factory expects. -/
def PyVal.asOptStr : PyVal → Option PyStr
  | .vStr s => some s
  | _ => none

/-- Coerce an attribute value to the `str` the factory's
`provider_name.lower().strip()` expects. -/
def PyVal.asStr : PyVal → PyStr
  | .vStr s => s
  | _ => []

/-- `create_ai_provider` of `src/ai_providers/factory.py`. -/
def create_ai_provider (provider_name : PyStr)
    (github_token qiniu_access_key qiniu_secret_key qiniu_api_endpoint : Option PyStr) :
    Except PyError AIProvider :=
  let p := pyStrip (pyLower provider_name)
  if p = ("copilot").toList then .ok (.copilot github_token)
  else if p = ("qiniu").toList then
    .ok (.qiniu qiniu_access_key qiniu_secret_key qiniu_api_endpoint)
  else .error .valueError

/-- `EnhancedAnalyzer._create_default_provider`: Python evaluates the five
keyword arguments left to right, reading `config.ai_provider` first. -/
def create_default_provider (cfg : Config) : Except PyError AIProvider := do
  let pv ← getattrExc cfg (("ai_provider").toList)
  let gt ← getattrExc cfg (("github_token").toList)
  let qa ← getattrExc cfg (("qiniu_access_key").toList)
  let qs ← getattrExc cfg (("qiniu_secret_key").toList)
  let qe ← getattrExc cfg (("qiniu_api_endpoint").toList)
  create_ai_provider pv.asStr gt.asOptStr qa.asOptStr qs.asOptStr qe.asOptStr

/-- The state of a constructed `EnhancedAnalyzer`. -/
structure EnhancedAnalyzer where
  provider : AIProvider
  deriving DecidableEq, Repr

/-- `EnhancedAnalyzer.__init__`:
`self._provider = ai_provider or self._create_default_provider()`
(a provider instance is always truthy). -/
def EnhancedAnalyzer.mkNew (cfg : Config) (ai_provider : Option AIProvider) :
    Except PyError EnhancedAnalyzer :=
  match ai_provider with
  | some p => .ok ⟨p⟩
  | none => (create_default_provider cfg).map (fun p => ⟨p⟩)

/-- The state of a constructed `NewsAnalyzer`. -/
structure NewsAnalyzer where
  analyzer : EnhancedAnalyzer
  deriving DecidableEq, Repr

/-- `NewsAnalyzer.__init__` (the legacy `github_token` parameter is
ignored by the constructor). -/
def NewsAnalyzer.mkNew (cfg : Config) (_github_token : Option PyStr)
    (ai_provider : Option AIProvider) : Except PyError NewsAnalyzer :=
  match ai_provider with
  | some p => (EnhancedAnalyzer.mkNew cfg (some p)).map (fun a => ⟨a⟩)
  | none => (EnhancedAnalyzer.mkNew cfg none).map (fun a => ⟨a⟩)

/-! ### Request signature (`CLSScraper._generate_sign`)

`src/scraper.py` itself is absent from the source tree (only its tests
and callers survive), so the signature computation is modelled from the
spec, which pins it bit-exactly: UTF-8 encode the canonical query string,
SHA-1, hex, UTF-8, MD5, hex. -/

/-- Truncate to a 32-bit word. -/
def w32 (n : Nat) : Nat := n % 4294967296

/-- 32-bit modular addition. -/
def wadd (a b : Nat) : Nat := w32 (a + b)

/-- 32-bit bitwise complement. -/
def wnot (n : Nat) : Nat := 4294967295 ^^^ n

/-- 32-bit left rotation by `k` of a word. -/
def rotl (k n : Nat) : Nat := w32 (n * 2 ^ k) ||| (n / 2 ^ (32 - k))

/-- UTF-8 encoding of one code point. -/
def utf8Encode1 (c : Char) : List Nat :=
  let n := c.toNat
  if n < 128 then [n]
  else if n < 2048 then [192 + n / 64, 128 + n % 64]
  else if n < 65536 then [224 + n / 4096, 128 + n / 64 % 64, 128 + n % 64]
  else [240 + n / 262144, 128 + n / 4096 % 64, 128 + n / 64 % 64, 128 + n % 64]

/-- UTF-8 encoding of a string. -/
def utf8Encode (s : PyStr) : List Nat := (s.map utf8Encode1).flatten

/-- A lowercase hexadecimal digit. -/
def hexDigit (n : Nat) : Char := if n < 10 then Char.ofNat (48 + n) else Char.ofNat (87 + n)

/-- Two lowercase hex digits of a byte. -/
def byteToHex (b : Nat) : PyStr := [hexDigit (b / 16), hexDigit (b % 16)]

/-- `hexdigest` rendering of a byte sequence. -/
def bytesToHex (bs : List Nat) : PyStr := (bs.map byteToHex).flatten

/-- Big-endian byte rendering of `n` on `k` bytes. -/
def beBytes (k n : Nat) : List Nat :=
  (List.range k).map (fun i => n / 2 ^ (8 * (k - 1 - i)) % 256)

/-- Little-endian byte rendering of `n` on `k` bytes. -/
def leBytes (k n : Nat) : List Nat :=
  (List.range k).map (fun i => n / 2 ^ (8 * i) % 256)

/-- Merkle–Damgård padding: one 0x80 byte, zeros to 56 mod 64, then the
bit length on 8 bytes (rendered by `lenBytes`). -/
def mdPad (lenBytes : Nat → List Nat) (msg : List Nat) : List Nat :=
  msg ++ [128] ++ List.replicate ((120 - ((msg.length + 1) % 64)) % 64) 0
    ++ lenBytes (8 * msg.length)

/-- Big-endian 32-bit word at byte offset `i`. -/
def word32BE (bs : List Nat) (i : Nat) : Nat :=
  bs.getD i 0 * 16777216 + bs.getD (i + 1) 0 * 65536 + bs.getD (i + 2) 0 * 256
    + bs.getD (i + 3) 0

/-- Little-endian 32-bit word at byte offset `i`. -/
def word32LE (bs : List Nat) (i : Nat) : Nat :=
  bs.getD i 0 + bs.getD (i + 1) 0 * 256 + bs.getD (i + 2) 0 * 65536
    + bs.getD (i + 3) 0 * 16777216

/-- SHA-1 round function. -/
def sha1F (t b c d : Nat) : Nat :=
  if t < 20 then (b &&& c) ||| (wnot b &&& d)
  else if t < 40 then b ^^^ c ^^^ d
  else if t < 60 then (b &&& c) ||| (b &&& d) ||| (c &&& d)
  else b ^^^ c ^^^ d

/-- SHA-1 round constants. -/
def sha1K (t : Nat) : Nat :=
  if t < 20 then 1518500249
  else if t < 40 then 1859775393
  else if t < 60 then 2400959708
  else 3395469782

/-- SHA-1 message schedule of the block at byte offset `base`. -/
def sha1W (bs : List Nat) (base : Nat) : List Nat :=
  let w16 := (List.range 16).map (fun j => word32BE bs (base + 4 * j))
  (List.range 64).foldl (fun w _ =>
    w ++ [rotl 1 (w.getD (w.length - 3) 0 ^^^ w.getD (w.length - 8) 0
      ^^^ w.getD (w.length - 14) 0 ^^^ w.getD (w.length - 16) 0)]) w16

/-- One SHA-1 block compression. -/
def sha1Block (h : Nat × Nat × Nat × Nat × Nat) (w : List Nat) :
    Nat × Nat × Nat × Nat × Nat :=
  let s := (List.range 80).foldl (fun (st : Nat × Nat × Nat × Nat × Nat) t =>
    let tmp := w32 (rotl 5 st.1 + sha1F t st.2.1 st.2.2.1 st.2.2.2.1 + st.2.2.2.2
      + sha1K t + w.getD t 0)
    (tmp, st.1, rotl 30 st.2.1, st.2.2.1, st.2.2.2.1)) h
  (wadd h.1 s.1, wadd h.2.1 s.2.1, wadd h.2.2.1 s.2.2.1,
   wadd h.2.2.2.1 s.2.2.2.1, wadd h.2.2.2.2 s.2.2.2.2)

/-- SHA-1 digest bytes of a byte message. -/
def sha1Bytes (msg : List Nat) : List Nat :=
  let padded := mdPad (beBytes 8) msg
  let final := (List.range (padded.length / 64)).foldl
    (fun h i => sha1Block h (sha1W padded (64 * i)))
    (1732584193, 4023233417, 2562383102, 271733878, 3285377520)
  beBytes 4 final.1 ++ beBytes 4 final.2.1 ++ beBytes 4 final.2.2.1
    ++ beBytes 4 final.2.2.2.1 ++ beBytes 4 final.2.2.2.2

/-- `hashlib.sha1(...).hexdigest()`. -/
def sha1Hex (msg : List Nat) : PyStr := bytesToHex (sha1Bytes msg)

/-- MD5 round function. -/
def md5F (i b c d : Nat) : Nat :=
  if i < 16 then (b &&& c) ||| (wnot b &&& d)
  else if i < 32 then (d &&& b) ||| (wnot d &&& c)
  else if i < 48 then b ^^^ c ^^^ d
  else c ^^^ (b ||| wnot d)

/-- MD5 message-word index per round. -/
def md5G (i : Nat) : Nat :=
  if i < 16 then i
  else if i < 32 then (5 * i + 1) % 16
  else if i < 48 then (3 * i + 5) % 16
  else (7 * i) % 16

/-- MD5 additive constants (RFC 1321). -/
def md5K : List Nat :=
  [3614090360, 3905402710, 606105819, 3250441966, 4118548399, 1200080426,
   2821735955, 4249261313, 1770035416, 2336552879, 4294925233, 2304563134,
   1804603682, 4254626195, 2792965006, 1236535329, 4129170786, 3225465664,
   643717713, 3921069994, 3593408605, 38016083, 3634488961, 3889429448,
   568446438, 3275163606, 4107603335, 1163531501, 2850285829, 4243563512,
   1735328473, 2368359562, 4294588738, 2272392833, 1839030562, 4259657740,
   2763975236, 1272893353, 4139469664, 3200236656, 681279174, 3936430074,
   3572445317, 76029189, 3654602809, 3873151461, 530742520, 3299628645,
   4096336452, 1126891415, 2878612391, 4237533241, 1700485571, 2399980690,
   4293915773, 2240044497, 1873313359, 4264355552, 2734768916, 1309151649,
   4149444226, 3174756917, 718787259, 3951481745]

/-- MD5 per-round shift amounts (RFC 1321). -/
def md5S : List Nat :=
  [7, 12, 17, 22, 7, 12, 17, 22, 7, 12, 17, 22, 7, 12, 17, 22,
   5, 9, 14, 20, 5, 9, 14, 20, 5, 9, 14, 20, 5, 9, 14, 20,
   4, 11, 16, 23, 4, 11, 16, 23, 4, 11, 16, 23, 4, 11, 16, 23,
   6, 10, 15, 21, 6, 10, 15, 21, 6, 10, 15, 21, 6, 10, 15, 21]

/-- One MD5 block compression of the block at byte offset `base`. -/
def md5Block (st : Nat × Nat × Nat × Nat) (bs : List Nat) (base : Nat) :
    Nat × Nat × Nat × Nat :=
  let s := (List.range 64).foldl (fun (q : Nat × Nat × Nat × Nat) i =>
    let f := w32 (md5F i q.2.1 q.2.2.1 q.2.2.2 + q.1 + md5K.getD i 0
      + word32LE bs (base + 4 * md5G i))
    (q.2.2.2, wadd q.2.1 (rotl (md5S.getD i 0) f), q.2.1, q.2.2.1)) st
  (wadd st.1 s.1, wadd st.2.1 s.2.1, wadd st.2.2.1 s.2.2.1, wadd st.2.2.2 s.2.2.2)

/-- MD5 digest bytes of a byte message. -/
def md5Bytes (msg : List Nat) : List Nat :=
  let padded := mdPad (leBytes 8) msg
  let final := (List.range (padded.length / 64)).foldl
    (fun st i => md5Block st padded (64 * i))
    (1732584193, 4023233417, 2562383102, 271733878)
  leBytes 4 final.1 ++ leBytes 4 final.2.1 ++ leBytes 4 final.2.2.1
    ++ leBytes 4 final.2.2.2

/-- `hashlib.md5(...).hexdigest()`. -/
def md5Hex (msg : List Nat) : PyStr := bytesToHex (md5Bytes msg)

/-- Modelled from the spec: `CLSScraper._generate_sign` (the scraper
module is missing from `src/`; §4.1 and §6 of the spec define the
signature as the MD5 hex digest of the SHA-1 hex digest of the UTF-8
bytes of the canonical query string). -/
def generateSign (params_str : PyStr) : PyStr :=
  md5Hex (utf8Encode (sha1Hex (utf8Encode params_str)))

/-! ### General lemmas -/

/-- The clamp always lands in `[1, 10]`. -/
theorem pyClamp_bounds (n : Int) : 1 ≤ pyClamp n ∧ pyClamp n ≤ 10 :=
  ⟨le_max_left 1 _, max_le (by norm_num) (min_le_left 10 n)⟩

/-- A concrete news item used by witnesses and counterexamples. -/
def newsA : NewsItem :=
  { id := ("1001").toList, title := [], content := ("内容").toList,
    ctime := 0, subjects := [], stocks := [] }

/-! ### Claim theorems -/

/-- The canonical query string of the spec's verified signing example. -/
def c5Params : PyStr :=
  ("app=CailianpressWeb&last_time=1234567890&os=web&rn=1&sv=7.2.2").toList

set_option maxRecDepth 40000 in
/-- C5: the request signature is the (pure, deterministic) function
`hex(md5(hex(sha1(·))))` of the canonical query string, and on the
canonical string `app=CailianpressWeb&last_time=1234567890&os=web&rn=1&sv=7.2.2`
it equals the MD5 hex digest of the SHA-1 hex digest of that string's
UTF-8 bytes, whose value is `788ea6eb5e7479ad2143ffe23ab360bf`. -/
theorem generate_sign_concrete :
    generateSign c5Params = md5Hex (utf8Encode (sha1Hex (utf8Encode c5Params)))
      ∧ generateSign c5Params = ("788ea6eb5e7479ad2143ffe23ab360bf").toList :=
  ⟨rfl, by decide⟩

/-- C10: constructing the analyzer without an explicit provider reads
`config.ai_provider`, which the `Config` dataclass does not define, so
for every configuration value the construction raises `AttributeError`
instead of returning an analyzer — for `EnhancedAnalyzer()` and
`NewsAnalyzer()` alike. -/
theorem default_provider_construction_fails (cfg : Config) :
    EnhancedAnalyzer.mkNew cfg none = .error .attributeError
      ∧ NewsAnalyzer.mkNew cfg none none = .error .attributeError :=
  ⟨rfl, rfl⟩

/-- C4: the parsed result is positive iff the positive marker `利好`
appears anywhere in the response and the negative marker `利空` does not
appear within the first 100 characters. -/
theorem parse_polarity (news : NewsItem) (now : Int) (response_text : PyStr) :
    (parseAnalysisResponseStr news now response_text).is_positive
      = (strContains response_text haoKw
          && !(strContains (response_text.take 100) kongKw)) := rfl

/-- C9: the fallback scorer is deterministic and side-effect-free: on
equal news items (and arbitrary clock readings, the only ambient state)
it produces equal scores, polarities, texts and rating lists. -/
theorem fallback_deterministic (news : NewsItem) (t1 t2 : Int) :
    (analyzeFallback news t1).score = (analyzeFallback news t2).score
      ∧ (analyzeFallback news t1).is_positive = (analyzeFallback news t2).is_positive
      ∧ (analyzeFallback news t1).analysis = (analyzeFallback news t2).analysis
      ∧ (analyzeFallback news t1).market_impact = (analyzeFallback news t2).market_impact
      ∧ (analyzeFallback news t1).stock_ratings = (analyzeFallback news t2).stock_ratings
      ∧ (analyzeFallback news t1).industry_ratings = (analyzeFallback news t2).industry_ratings
      ∧ (analyzeFallback news t1).news_id = (analyzeFallback news t2).news_id :=
  ⟨rfl, rfl, rfl, rfl, rfl, rfl, rfl⟩

/-- C3: the fallback score is
`clamp(5 + (positiveHits - negativeHits) + 2 * impactHits, 1, 10)` over
the lowercased content, and the result is positive iff the positive hits
strictly exceed the negative hits. -/
theorem fallback_formula (news : NewsItem) (now : Int) :
    (analyzeFallback news now).score
      = pyClamp (5 + ((keywordHits (pyLower news.content) positive_keywords : Int)
            - (keywordHits (pyLower news.content) negative_keywords : Int))
          + 2 * (keywordHits (pyLower news.content) high_impact_keywords : Int))
      ∧ ((analyzeFallback news now).is_positive = true
          ↔ keywordHits (pyLower news.content) negative_keywords
              < keywordHits (pyLower news.content) positive_keywords) := by
  constructor
  · show pyClamp _ = _
    push_cast
    ring_nf
  · simp [analyzeFallback]

/-- C1 counterexample: a truthy non-text provider response makes the
parse fail (`None`), and `_analyze_with_ai` then returns `None` — it does
not degrade to the fallback scorer and returns no `AnalysisResult`. -/
theorem parser_failure_not_degraded :
    parseAnalysisResponse newsA 0 PyText.nonText = none
      ∧ responseTruthy (some PyText.nonText) = true
      ∧ analyzeWithAI newsA 0 (ProviderOutcome.returned (some PyText.nonText)) = none
      ∧ analyzeWithAI newsA 0 (ProviderOutcome.returned (some PyText.nonText))
          ≠ some (analyzeFallback newsA 0) :=
  ⟨rfl, rfl, rfl, by simp [analyzeWithAI, responseTruthy, parseAnalysisResponse]⟩

/-- C1 amended: when the backend is available, a backend exception and an
empty (falsy) response degrade to the fallback scorer; a non-empty text
response is handed to the parser, which always succeeds on text, and its
result is returned; if the parse does fail (possible only for a non-text
response value) the failure propagates as `None` instead of degrading to
the fallback scorer. -/
theorem analyze_with_ai_outcomes (news : NewsItem) (now : Int) :
    analyzeWithAI news now .raised = some (analyzeFallback news now)
      ∧ analyzeWithAI news now (.returned none) = some (analyzeFallback news now)
      ∧ analyzeWithAI news now (.returned (some (PyText.str [])))
          = some (analyzeFallback news now)
      ∧ (∀ s : PyStr, s ≠ [] →
          analyzeWithAI news now (.returned (some (PyText.str s)))
            = some (parseAnalysisResponseStr news now s))
      ∧ analyzeWithAI news now (.returned (some PyText.nonText)) = none := by
  refine ⟨rfl, rfl, rfl, ?_, rfl⟩
  intro s hs
  cases s with
  | nil => exact absurd rfl hs
  | cons c t => rfl

/-- Witness for the amended C1 theorem at a concrete non-empty text
response. -/
theorem analyze_with_ai_outcomes_witness :
    analyzeWithAI newsA 0 (ProviderOutcome.returned (some (PyText.str (("好").toList))))
      = some (parseAnalysisResponseStr newsA 0 (("好").toList)) :=
  (analyze_with_ai_outcomes newsA 0).2.2.2.1 (("好").toList) (by decide)

/-- One-step unfolding of the findall scan. -/
theorem findStockAux_succ (f : Nat) (cs : PyStr) :
    findStockAux (f + 1) cs
      = match matchStockAt cs with
        | some (r, rest) => r :: findStockAux f rest
        | none => match cs with | [] => [] | _ :: t => findStockAux f t := rfl

/-- Every rating built by `matchStockAt` carries a clamped score. -/
theorem matchStockAt_score {cs : PyStr} {r : StockRating} {rest : PyStr}
    (h : matchStockAt cs = some (r, rest)) : ∃ n : Nat, r.score = pyClamp n := by
  simp only [matchStockAt, Option.bind_eq_bind, Option.bind_eq_some] at h
  obtain ⟨r1, h1, h⟩ := h
  obtain ⟨⟨nm, r2⟩, h2, h⟩ := h
  obtain ⟨⟨pos, r3⟩, h3, h⟩ := h
  obtain ⟨⟨ds, r4⟩, h4, h⟩ := h
  obtain ⟨r5, h5, h⟩ := h
  obtain ⟨⟨rsn, rest2⟩, h6, h⟩ := h
  obtain ⟨hr, hrest⟩ := Prod.mk.injEq .. ▸ (Option.some.injEq .. ▸ h)
  exact ⟨digitsToNat ds, by rw [← hr]⟩

/-- Every rating produced by the findall scan carries a clamped score. -/
theorem findStockAux_score (f : Nat) :
    ∀ (cs : PyStr), ∀ r ∈ findStockAux f cs, ∃ n : Nat, r.score = pyClamp n := by
  induction f with
  | zero => intro cs r hr; simp [findStockAux] at hr
  | succ f ih =>
    intro cs r hr
    rw [findStockAux_succ] at hr
    cases hm : matchStockAt cs with
    | some pr =>
      obtain ⟨r0, rest⟩ := pr
      simp only [hm] at hr
      rcases List.mem_cons.mp hr with h | h
      · exact h ▸ matchStockAt_score hm
      · exact ih rest r h
    | none =>
      simp only [hm] at hr
      cases cs with
      | nil => simp at hr
      | cons c t => exact ih t r hr

/-- The industry extraction yields `[]` or a single rating whose name is
not the default placeholder and whose score is clamped. -/
theorem parseIndustryRatings_cases (t : PyStr) :
    parseIndustryRatings t = []
      ∨ ∃ i, parseIndustryRatings t = [i] ∧ i.industry_name ≠ unknownIndustryText
        ∧ ∃ n : Nat, i.score = pyClamp n := by
  simp only [parseIndustryRatings]
  split
  · exact Or.inl rfl
  · split
    · next h => exact Or.inr ⟨_, rfl, h, ⟨_, rfl⟩⟩
    · exact Or.inl rfl

/-- Without either structural marker the industry extraction yields `[]`. -/
theorem parseIndustryRatings_no_marker {t : PyStr}
    (h1 : strContains t industryRatingLabel = false)
    (h2 : strContains t industryNameLabel = false) :
    parseIndustryRatings t = [] := by
  simp only [parseIndustryRatings]
  simp [h1, h2]

/-- All score fields of an `AnalysisResult` lie in `[1, 10]`. -/
def scoresInRange (r : AnalysisResult) : Prop :=
  1 ≤ r.score ∧ r.score ≤ 10
    ∧ (∀ s ∈ r.stock_ratings, 1 ≤ s.score ∧ s.score ≤ 10)
    ∧ (∀ i ∈ r.industry_ratings, 1 ≤ i.score ∧ i.score ≤ 10)

/-- C2: on both the AI-parse path and the fallback path, the overall
score and every per-stock and per-industry score stored in the produced
`AnalysisResult` lie in `[1, 10]` (every score is clamped before being
stored). -/
theorem analyzer_scores_in_range (news : NewsItem) (now : Int) (response_text : PyStr) :
    scoresInRange (parseAnalysisResponseStr news now response_text)
      ∧ scoresInRange (analyzeFallback news now) := by
  constructor
  · refine ⟨(pyClamp_bounds _).1, (pyClamp_bounds _).2, ?_, ?_⟩
    · intro s hs
      have hs2 : s ∈ findStockAux (response_text.length + 1) response_text := hs
      obtain ⟨n, hn⟩ := findStockAux_score _ _ s hs2
      rw [hn]; exact pyClamp_bounds n
    · intro i hi
      have hi2 : i ∈ parseIndustryRatings response_text := hi
      rcases parseIndustryRatings_cases response_text with h | ⟨j, h, _, n, hn⟩
      · rw [h] at hi2; simp at hi2
      · rw [h] at hi2
        simp at hi2
        rw [hi2, hn]; exact pyClamp_bounds n
  · refine ⟨(pyClamp_bounds _).1, (pyClamp_bounds _).2, ?_, ?_⟩
    · intro s hs
      simp only [analyzeFallback, List.mem_map] at hs
      obtain ⟨x, hx, rfl⟩ := hs
      exact ⟨(pyClamp_bounds _).1, (pyClamp_bounds _).2⟩
    · intro i hi
      simp only [analyzeFallback, List.mem_map] at hi
      obtain ⟨x, hx, rfl⟩ := hi
      exact ⟨(pyClamp_bounds _).1, (pyClamp_bounds _).2⟩

/-- C7: for every response, the parser emits at most one industry rating;
it attempts extraction only when one of the structural markers `行业评级`
or `行业名称` is present; and it never emits a rating whose name is the
default placeholder `未知行业`. -/
theorem industry_ratings_at_most_one (response_text : PyStr) :
    (parseIndustryRatings response_text).length ≤ 1
      ∧ (strContains response_text industryRatingLabel = false →
          strContains response_text industryNameLabel = false →
          parseIndustryRatings response_text = [])
      ∧ (∀ i ∈ parseIndustryRatings response_text,
          i.industry_name ≠ unknownIndustryText) := by
  refine ⟨?_, fun h1 h2 => parseIndustryRatings_no_marker h1 h2, ?_⟩
  · rcases parseIndustryRatings_cases response_text with h | ⟨i, h, _, _⟩ <;> simp [h]
  · rcases parseIndustryRatings_cases response_text with h | ⟨i, h, hn, _⟩ <;> simp [h]
    exact hn

/-- Witness for C7 at a concrete marker-free response. -/
theorem industry_ratings_at_most_one_witness :
    parseIndustryRatings (("没有标记").toList) = [] :=
  (industry_ratings_at_most_one (("没有标记").toList)).2.1 (by decide) (by decide)

/-! ### C8: prompt sections -/

/-- The fixed head of the stock section is non-empty. -/
theorem stockSectionHead_ne : stockSectionHead ≠ [] := by decide

/-- The fixed industry section text is non-empty. -/
theorem industrySectionText_ne : industrySectionText ≠ [] := by decide

/-- The stock section is present iff the item names specific stocks. -/
theorem stockSection_ne_iff (n : NewsItem) : stockSection n ≠ [] ↔ n.stocks ≠ [] := by
  unfold stockSection NewsItem.has_specific_stocks
  cases hs : n.stocks with
  | nil => simp [hs]
  | cons a t => simp [hs, List.append_eq_nil, stockSectionHead_ne]

/-- The industry section is present iff the item is an industry event
(the extra disjunct `subjects_str != "无"` is subsumed: a non-empty
subject list already makes the item an industry event). -/
theorem industrySection_ne_iff (n : NewsItem) :
    industrySection n ≠ [] ↔ n.is_industry_event = true := by
  unfold industrySection
  cases h : n.is_industry_event with
  | true => simp [h, industrySectionText_ne]
  | false =>
    have hsub : n.subjects = [] := by
      unfold NewsItem.is_industry_event at h
      simp only [Bool.or_eq_false_iff] at h
      simpa using h.2
    simp [h, subjectsStrOf, hsub]

/-- An item without a stock section (no stocks) is an industry event, so
its industry section is present: the two sections can never both be
absent. -/
theorem stockSection_nil_industry {n : NewsItem} (h : stockSection n = []) :
    industrySection n ≠ [] := by
  have hs : n.stocks = [] := by
    by_contra hne
    exact (stockSection_ne_iff n).mpr hne h
  exact (industrySection_ne_iff n).mpr (by simp [NewsItem.is_industry_event, hs])

/-- A concrete item with both a stock and a subject. -/
def newsBoth : NewsItem :=
  { id := [], title := [], content := [], ctime := 0,
    subjects := [("锂电").toList], stocks := [("比亚迪").toList] }

/-- A concrete item with a stock and no subject. -/
def newsStockOnly : NewsItem :=
  { id := [], title := [], content := [], ctime := 0,
    subjects := [], stocks := [("比亚迪").toList] }

/-- C8 counterexample: the claim that all four presence combinations are
possible is false — no news item yields a prompt with neither section. -/
theorem four_combinations_refuted :
    ¬ ∃ n : NewsItem, stockSection n = [] ∧ industrySection n = [] := by
  rintro ⟨n, h1, h2⟩
  exact stockSection_nil_industry h1 h2

/-- C8 amended: the prompt is the fixed text around the two conditional
sections; the stock section is present iff the item names stocks, the
industry section iff it is an industry event; both-present, only-stock
and only-industry are realizable, but the absence of the stock section
forces the industry section to be present (neither-present is
impossible). -/
theorem prompt_sections (n : NewsItem) :
    buildAnalysisPrompt n
        = promptPre n ++ stockSection n ++ industrySection n ++ promptPost
      ∧ (stockSection n ≠ [] ↔ n.stocks ≠ [])
      ∧ (industrySection n ≠ [] ↔ n.is_industry_event = true)
      ∧ (∃ a : NewsItem, stockSection a ≠ [] ∧ industrySection a ≠ [])
      ∧ (∃ b : NewsItem, stockSection b ≠ [] ∧ industrySection b = [])
      ∧ (∃ c : NewsItem, stockSection c = [] ∧ industrySection c ≠ [])
      ∧ (stockSection n = [] → industrySection n ≠ []) :=
  ⟨rfl, stockSection_ne_iff n, industrySection_ne_iff n,
   ⟨newsBoth, by decide, by decide⟩,
   ⟨newsStockOnly, by decide, by decide⟩,
   ⟨newsA, by decide, by decide⟩,
   fun h => stockSection_nil_industry h⟩

/-- Witness for the amended C8 theorem at a concrete stock-free item. -/
theorem prompt_sections_witness : industrySection newsA ≠ [] :=
  (prompt_sections newsA).2.2.2.2.2.2 (by decide)

/-! ### C6: stock-rating line extraction -/

/-- Every character is non-whitespace and not a (half- or full-width)
colon — the shape of the name and reason fields of a well-formed rating
line. -/
def plainStr (s : PyStr) : Bool :=
  s.all (fun c => !isPySpace c && !(c == ':') && !(c == '：'))

/-- A non-empty ASCII digit string. -/
def digitStr (s : PyStr) : Bool := !s.isEmpty && s.all isPyDigit

/-- A well-formed stock-rating line
`- <name>: <利好|利空> <score>/10 | <reason>`. -/
def mkStockLine (nm : PyStr) (pos : Bool) (ds rsn : PyStr) : PyStr :=
  '-' :: ' ' :: (nm ++ ':' :: ' ' :: ((if pos then haoKw else kongKw)
    ++ ' ' :: (ds ++ '/' :: '1' :: '0' :: ' ' :: '|' :: ' ' :: rsn)))

/-- A line whose numeric score field is malformed (`x` is not a digit
run), so it matches no fragment of the pattern. -/
def badNumericLine : PyStr := ("- 乙: 利好 x/10 | 理由").toList

/-- Dropping a literal off the front of a literal-headed string. -/
theorem dropLit_append (lit r : PyStr) : dropLit lit (lit ++ r) = some r := by
  simp [dropLit, List.isPrefixOf_iff_prefix, List.drop_left]

/-- An ASCII digit is not regex whitespace. -/
theorem digit_not_space {c : Char} (h : isPyDigit c = true) : isPySpace c = false := by
  simp [isPyDigit] at h
  simp [isPySpace]
  omega

/-- A plain character is not regex whitespace. -/
theorem plain_not_space {c : Char}
    (h : (!isPySpace c && !(c == ':') && !(c == '：')) = true) : isPySpace c = false := by
  simp at h
  exact h.1.1

/-- A plain character is in the class `[^:：]`. -/
theorem plain_notColon {c : Char}
    (h : (!isPySpace c && !(c == ':') && !(c == '：')) = true) : notColon c = true := by
  simp [notColon]
  simp at h
  exact ⟨h.1.2, h.2⟩

/-- `takeWhile` keeps a list all of whose elements satisfy the predicate. -/
theorem takeWhile_all {p : Char → Bool} {l : PyStr} (h : ∀ c ∈ l, p c = true) :
    l.takeWhile p = l := by
  induction l with
  | nil => rfl
  | cons c t ih =>
    rw [List.takeWhile_cons_of_pos (h c (by simp))]
    rw [ih (fun x hx => h x (by simp [hx]))]

/-- `dropWhile` drops a list all of whose elements satisfy the predicate. -/
theorem dropWhile_all {p : Char → Bool} {l : PyStr} (h : ∀ c ∈ l, p c = true) :
    l.dropWhile p = [] := by
  induction l with
  | nil => rfl
  | cons c t ih =>
    rw [List.dropWhile_cons_of_pos (by simp [h c (by simp)])]
    exact ih (fun x hx => h x (by simp [hx]))

/-- `dropWhile` keeps a list none of whose elements satisfy the predicate. -/
theorem dropWhile_eq_self {p : Char → Bool} {l : PyStr} (h : ∀ c ∈ l, p c = false) :
    l.dropWhile p = l := by
  cases l with
  | nil => rfl
  | cons c t => rw [List.dropWhile_cons_of_neg (by simp [h c (by simp)])]

/-- `strip` of a whitespace-free string. -/
theorem pyStrip_eq_self {l : PyStr} (h : ∀ c ∈ l, isPySpace c = false) : pyStrip l = l := by
  unfold pyStrip
  rw [dropWhile_eq_self h,
      dropWhile_eq_self (fun c hc => h c (List.mem_reverse.mp hc)),
      List.reverse_reverse]

/-- `takeWhile` across an all-satisfying prefix up to a failing element. -/
theorem takeWhile_append_stop {p : Char → Bool} {l r : PyStr} {c : Char}
    (hl : ∀ x ∈ l, p x = true) (hc : p c = false) :
    (l ++ c :: r).takeWhile p = l := by
  rw [List.takeWhile_append_of_pos (fun x hx => hl x hx),
      List.takeWhile_cons_of_neg (by simp [hc]), List.append_nil]

/-- `dropWhile` across an all-satisfying prefix up to a failing element. -/
theorem dropWhile_append_stop {p : Char → Bool} {l r : PyStr} {c : Char}
    (hl : ∀ x ∈ l, p x = true) (hc : p c = false) :
    (l ++ c :: r).dropWhile p = c :: r := by
  rw [List.dropWhile_append_of_pos (fun x hx => hl x hx),
      List.dropWhile_cons_of_neg (by simp [hc])]

/-- `nameColon` on `\s` + plain name + colon. -/
theorem nameColon_plain {nm rest : PyStr} (hnm : plainStr nm = true) (h0 : nm ≠ []) :
    nameColon (' ' :: (nm ++ ':' :: rest)) = some (nm, rest) := by
  obtain ⟨m0, mt, rfl⟩ : ∃ a l, nm = a :: l := by
    cases nm with
    | nil => exact absurd rfl h0
    | cons a l => exact ⟨a, l, rfl⟩
  have hplain : ∀ c ∈ m0 :: mt, (!isPySpace c && !(c == ':') && !(c == '：')) = true := by
    simpa [plainStr, List.all_eq_true] using hnm
  have hm0s : isPySpace m0 = false := plain_not_space (hplain m0 (by simp))
  have hmt : ∀ x ∈ mt, notColon x = true :=
    fun x hx => plain_notColon (hplain x (by simp [hx]))
  have e1 : (' ' :: (m0 :: (mt ++ ':' :: rest))).takeWhile isPySpace = [' '] := by
    rw [List.takeWhile_cons_of_pos (by decide), List.takeWhile_cons_of_neg (by simp [hm0s])]
  have e2 : (' ' :: (m0 :: (mt ++ ':' :: rest))).dropWhile isPySpace
      = m0 :: (mt ++ ':' :: rest) := by
    rw [List.dropWhile_cons_of_pos (by decide), List.dropWhile_cons_of_neg (by simp [hm0s])]
  have e3 : (m0 :: (mt ++ ':' :: rest)).takeWhile notColon = m0 :: mt := by
    rw [List.takeWhile_cons_of_pos (by simp [plain_notColon (hplain m0 (by simp))]),
        takeWhile_append_stop hmt (by decide)]
  have e4 : (m0 :: (mt ++ ':' :: rest)).dropWhile notColon = ':' :: rest := by
    rw [List.dropWhile_cons_of_pos (by simp [plain_notColon (hplain m0 (by simp))]),
        dropWhile_append_stop hmt (by decide)]
  simp only [nameColon, List.cons_append, e1, e2, e3, e4]
  simp

/-- `sentimentTok` on `\s` + marker literal. -/
theorem sentimentTok_shape (pos : Bool) (rest : PyStr) :
    sentimentTok (' ' :: ((if pos then haoKw else kongKw) ++ ' ' :: rest))
      = some (pos, ' ' :: rest) := by
  have hh : haoKw = ['利', '好'] := rfl
  have hk : kongKw = ['利', '空'] := rfl
  cases pos with
  | true =>
    have e1 : (' ' :: '利' :: '好' :: ' ' :: rest).dropWhile isPySpace
        = '利' :: '好' :: ' ' :: rest := by
      rw [List.dropWhile_cons_of_pos (by decide), List.dropWhile_cons_of_neg (by decide)]
    simp only [if_pos rfl, hh, List.cons_append, List.nil_append]
    simp [sentimentTok, wsLit, dropLit, List.isPrefixOf, e1, hh]
  | false =>
    have e1 : (' ' :: '利' :: '空' :: ' ' :: rest).dropWhile isPySpace
        = '利' :: '空' :: ' ' :: rest := by
      rw [List.dropWhile_cons_of_pos (by decide), List.dropWhile_cons_of_neg (by decide)]
    simp only [if_neg Bool.false_ne_true, hk, List.cons_append, List.nil_append]
    simp [sentimentTok, wsLit, dropLit, List.isPrefixOf, e1, hh, hk]

/-- `wsDigitsTail` on `\s` + digit run + `/10`. -/
theorem wsDigitsTail_shape {ds : PyStr} (rest : PyStr) (hds : digitStr ds = true) :
    wsDigitsTail (' ' :: (ds ++ '/' :: '1' :: '0' :: rest)) = some (ds, rest) := by
  obtain ⟨hne, hall⟩ : ds ≠ [] ∧ ∀ c ∈ ds, isPyDigit c = true := by
    simpa [digitStr, List.all_eq_true, List.isEmpty_iff] using hds
  obtain ⟨d0, dt, rfl⟩ : ∃ a l, ds = a :: l := by
    cases ds with
    | nil => exact absurd rfl hne
    | cons a l => exact ⟨a, l, rfl⟩
  have h0 : isPyDigit d0 = true := hall d0 (by simp)
  have h0s : isPySpace d0 = false := digit_not_space h0
  have hdt : ∀ x ∈ dt, isPyDigit x = true := fun x hx => hall x (by simp [hx])
  have e1 : (' ' :: (d0 :: (dt ++ '/' :: '1' :: '0' :: rest))).dropWhile isPySpace
      = d0 :: (dt ++ '/' :: '1' :: '0' :: rest) := by
    rw [List.dropWhile_cons_of_pos (by decide), List.dropWhile_cons_of_neg (by simp [h0s])]
  have e2 : (d0 :: (dt ++ '/' :: '1' :: '0' :: rest)).takeWhile isPyDigit = d0 :: dt := by
    rw [List.takeWhile_cons_of_pos (by simp [h0]), takeWhile_append_stop hdt (by decide)]
  have e3 : (d0 :: (dt ++ '/' :: '1' :: '0' :: rest)).dropWhile isPyDigit
      = '/' :: '1' :: '0' :: rest := by
    rw [List.dropWhile_cons_of_pos (by simp [h0]), dropWhile_append_stop hdt (by decide)]
  simp only [wsDigitsTail, List.cons_append, e1, e2, e3]
  simp [dropLit, List.isPrefixOf, slash10Tok]

/-- `\s*\|` on `\s` + `|`. -/
theorem wsLit_pipe (x : PyStr) : wsLit pipeTok (' ' :: '|' :: x) = some x := by
  have e1 : (' ' :: '|' :: x).dropWhile isPySpace = '|' :: x := by
    rw [List.dropWhile_cons_of_pos (by decide), List.dropWhile_cons_of_neg (by decide)]
  simp [wsLit, pipeTok, dropLit, List.isPrefixOf, e1]

/-- A non-whitespace character is not a newline. -/
theorem not_space_ne_nl {c : Char} (h : isPySpace c = false) : (c != '\n') = true := by
  rcases eq_or_ne c '\n' with rfl | hne
  · exact absurd h (by decide)
  · simp [hne]

/-- `wsLazyLine` on `\s` + newline-free reason followed by a newline or
the end of the input. -/
theorem wsLazyLine_shape {rsn : PyStr} {tail : PyStr} (h0 : rsn ≠ [])
    (hplain : ∀ c ∈ rsn, isPySpace c = false)
    (htail : tail = [] ∨ ∃ t, tail = '\n' :: t) :
    wsLazyLine (' ' :: (rsn ++ tail)) = some (rsn, tail.tail) := by
  obtain ⟨r0, rt, rfl⟩ : ∃ a l, rsn = a :: l := by
    cases rsn with
    | nil => exact absurd rfl h0
    | cons a l => exact ⟨a, l, rfl⟩
  have h0s : isPySpace r0 = false := hplain r0 (by simp)
  have hnl : ∀ x ∈ r0 :: rt, (x != '\n') = true :=
    fun x hx => not_space_ne_nl (hplain x hx)
  have hnlt : ∀ x ∈ rt, (x != '\n') = true := fun x hx => hnl x (by simp [hx])
  have e1 : (' ' :: (r0 :: (rt ++ tail))).dropWhile isPySpace = r0 :: (rt ++ tail) := by
    rw [List.dropWhile_cons_of_pos (by decide), List.dropWhile_cons_of_neg (by simp [h0s])]
  rcases htail with rfl | ⟨t, rfl⟩
  · simp only [List.append_nil] at e1 ⊢
    simp only [wsLazyLine, List.cons_append, e1]
    simp only [takeWhile_all hnl, dropWhile_all hnl, chopNl, List.tail_nil]
  · simp only [wsLazyLine, List.cons_append, e1]
    have e2 : (r0 :: (rt ++ '\n' :: t)).takeWhile (fun x => x != '\n') = r0 :: rt := by
      rw [List.takeWhile_cons_of_pos (by simp [hnl r0 (by simp)]),
          takeWhile_append_stop hnlt (by decide)]
    have e3 : (r0 :: (rt ++ '\n' :: t)).dropWhile (fun x => x != '\n') = '\n' :: t := by
      rw [List.dropWhile_cons_of_pos (by simp [hnl r0 (by simp)]),
          dropWhile_append_stop hnlt (by decide)]
    simp only [e2, e3, chopNl, List.tail_cons]
    simp

/-- The characters of a plain string are not whitespace. -/
theorem plainStr_not_space {s : PyStr} (h : plainStr s = true) :
    ∀ c ∈ s, isPySpace c = false := by
  have h2 : ∀ x ∈ s, (isPySpace x = false ∧ ¬ x = ':') ∧ ¬ x = '：' := by
    simpa [plainStr] using h
  exact fun c hc => (h2 c hc).1.1

/-- `matchStockAt` on a well-formed line (followed by a newline or the
end of the input) matches and produces the rating the Python loop body
builds. -/
theorem matchStockAt_mkLine {nm ds rsn : PyStr} (pos : Bool) {tail : PyStr}
    (hnm : plainStr nm = true) (hnm0 : nm ≠ [])
    (hds : digitStr ds = true)
    (hrs : plainStr rsn = true) (hrs0 : rsn ≠ [])
    (htail : tail = [] ∨ ∃ t, tail = '\n' :: t) :
    matchStockAt (mkStockLine nm pos ds rsn ++ tail)
      = some ({ stock_name := nm, is_positive := pos,
                score := pyClamp ((digitsToNat ds : Int)),
                reason := rsn.take 100 }, tail.tail) := by
  have hinput : mkStockLine nm pos ds rsn ++ tail
      = '-' :: (' ' :: (nm ++ ':' :: (' ' :: ((if pos then haoKw else kongKw)
          ++ ' ' :: (ds ++ '/' :: '1' :: '0' :: (' ' :: '|' :: (' ' :: (rsn ++ tail)))))))) := by
    simp [mkStockLine, List.cons_append, List.append_assoc]
  have s1 : ∀ R : PyStr, dropLit dashTok ('-' :: R) = some R := by
    intro R
    have hd : dashTok = ['-'] := rfl
    rw [hd]
    simpa using dropLit_append ['-'] R
  rw [hinput]
  simp only [matchStockAt, Option.bind_eq_bind, s1, Option.some_bind,
    nameColon_plain hnm hnm0,
    sentimentTok_shape pos,
    wsDigitsTail_shape _ hds,
    wsLit_pipe,
    wsLazyLine_shape hrs0 (plainStr_not_space hrs) htail,
    Option.some.injEq]
  rw [pyStrip_eq_self (plainStr_not_space hnm), pyStrip_eq_self (plainStr_not_space hrs)]

/-- Unfolding step of the findall scan at a matching position. -/
theorem findStockAux_match_step {f : Nat} {cs rest : PyStr} {r : StockRating}
    (h : matchStockAt cs = some (r, rest)) :
    findStockAux (f + 1) cs = r :: findStockAux f rest := by
  rw [findStockAux_succ]
  simp only [h]

/-- The scan of an empty input yields nothing. -/
theorem findStockAux_nil (f : Nat) : findStockAux f [] = [] := by
  cases f with
  | zero => rfl
  | succ f => rfl

/-- C6: two well-formed rating lines parse to exactly the two expected
ratings — matching name and polarity, clamped score, reason truncated to
100 characters — and a line with a malformed numeric score matches no
fragment and does not abort the parsing of subsequent lines. -/
theorem stock_rating_lines
    (n1 d1 r1 n2 d2 r2 : PyStr) (p1 p2 : Bool)
    (hn1 : plainStr n1 = true) (hn1e : n1 ≠ [])
    (hd1 : digitStr d1 = true)
    (hr1 : plainStr r1 = true) (hr1e : r1 ≠ [])
    (hn2 : plainStr n2 = true) (hn2e : n2 ≠ [])
    (hd2 : digitStr d2 = true)
    (hr2 : plainStr r2 = true) (hr2e : r2 ≠ []) :
    (parseStockRatings (mkStockLine n1 p1 d1 r1 ++ '\n' :: mkStockLine n2 p2 d2 r2)
      = [{ stock_name := n1, is_positive := p1,
           score := pyClamp ((digitsToNat d1 : Int)), reason := r1.take 100 },
         { stock_name := n2, is_positive := p2,
           score := pyClamp ((digitsToNat d2 : Int)), reason := r2.take 100 }])
      ∧ parseStockRatings ((mkStockLine (("甲").toList) true (("8").toList) (("强").toList)
            ++ '\n' :: badNumericLine)
            ++ '\n' :: mkStockLine (("丙").toList) false (("0").toList) (("弱").toList))
          = [{ stock_name := ("甲").toList, is_positive := true, score := 8,
               reason := ("强").toList },
             { stock_name := ("丙").toList, is_positive := false, score := 1,
               reason := ("弱").toList }] := by
  constructor
  · have hm1 := matchStockAt_mkLine p1 hn1 hn1e hd1 hr1 hr1e
      (Or.inr ⟨mkStockLine n2 p2 d2 r2, rfl⟩)
    have hm2 := matchStockAt_mkLine p2 hn2 hn2e hd2 hr2 hr2e (Or.inl rfl)
    rw [List.append_nil] at hm2
    simp only [List.tail_cons, List.tail_nil] at hm1 hm2
    unfold parseStockRatings
    rw [findStockAux_match_step hm1]
    have hlen : (mkStockLine n1 p1 d1 r1 ++ '\n' :: mkStockLine n2 p2 d2 r2).length
        = ((mkStockLine n1 p1 d1 r1).length + (mkStockLine n2 p2 d2 r2).length) + 1 := by
      simp [List.length_append]
      omega
    rw [hlen, findStockAux_match_step hm2, findStockAux_nil]
  · decide

/-- Witness for C6 at concrete well-formed lines, with the clamp and the
truncation evaluated. -/
theorem stock_rating_lines_witness :
    parseStockRatings (mkStockLine (("宁德时代").toList) true (("9").toList) (("受益").toList)
        ++ '\n' :: mkStockLine (("万科").toList) false (("15").toList) (("承压").toList))
      = [{ stock_name := ("宁德时代").toList, is_positive := true, score := 9,
           reason := ("受益").toList },
         { stock_name := ("万科").toList, is_positive := false, score := 10,
           reason := ("承压").toList }] := by
  have h := (stock_rating_lines (("宁德时代").toList) (("9").toList) (("受益").toList)
    (("万科").toList) (("15").toList) (("承压").toList) true false
    (by decide) (by decide) (by decide) (by decide) (by decide)
    (by decide) (by decide) (by decide) (by decide) (by decide)).1
  rw [h]
  decide

end CLSVerif
